import Mathlib

/-!
Verification of the self-update flow of the workhelix-cli-common library.

The development shallowly embeds `src/types.rs` (the `RepoInfo` record and
its URL constructors) and `src/update.rs` (the `run_update` orchestrator,
`get_latest_version`, `perform_update` and `get_platform_string`).  Network
responses, the interactive confirmation line, and filesystem outcomes are
supplied as explicit oracle arguments; the functions record which stages of
the flow were reached in a trace, so that ordering and frame properties can
be stated.  SHA-256 is embedded concretely (the code hashes the downloaded
archive with `sha2::Sha256` and compares against a hex digest).
-/

namespace WorkhelixCli

/-! ## 32-bit word arithmetic and SHA-256 (the `sha2` crate's digest) -/

def w32 (n : Nat) : Nat := n % 4294967296

def rotr (n x : Nat) : Nat := w32 ((x >>> n) ||| (x <<< (32 - n)))

def bigSigma0 (x : Nat) : Nat := rotr 2 x ^^^ rotr 13 x ^^^ rotr 22 x

def bigSigma1 (x : Nat) : Nat := rotr 6 x ^^^ rotr 11 x ^^^ rotr 25 x

def smallSigma0 (x : Nat) : Nat := rotr 7 x ^^^ rotr 18 x ^^^ (x >>> 3)

def smallSigma1 (x : Nat) : Nat := rotr 17 x ^^^ rotr 19 x ^^^ (x >>> 10)

def chFn (x y z : Nat) : Nat := (x &&& y) ^^^ ((x ^^^ 4294967295) &&& z)

def majFn (x y z : Nat) : Nat := (x &&& y) ^^^ (x &&& z) ^^^ (y &&& z)

/-- The eight 32-bit words of SHA-256 working state. -/
structure Hash8 where
  a : Nat
  b : Nat
  c : Nat
  d : Nat
  e : Nat
  f : Nat
  g : Nat
  h : Nat
  deriving DecidableEq

def sha256InitHash : Hash8 :=
  ⟨0x6a09e667, 0xbb67ae85, 0x3c6ef372, 0xa54ff53a,
   0x510e527f, 0x9b05688c, 0x1f83d9ab, 0x5be0cd19⟩

def sha256Krow0 : List Nat :=
  [0x428a2f98, 0x71374491, 0xb5c0fbcf, 0xe9b5dba5, 0x3956c25b, 0x59f111f1, 0x923f82a4, 0xab1c5ed5]

def sha256Krow1 : List Nat :=
  [0xd807aa98, 0x12835b01, 0x243185be, 0x550c7dc3, 0x72be5d74, 0x80deb1fe, 0x9bdc06a7, 0xc19bf174]

def sha256Krow2 : List Nat :=
  [0xe49b69c1, 0xefbe4786, 0x0fc19dc6, 0x240ca1cc, 0x2de92c6f, 0x4a7484aa, 0x5cb0a9dc, 0x76f988da]

def sha256Krow3 : List Nat :=
  [0x983e5152, 0xa831c66d, 0xb00327c8, 0xbf597fc7, 0xc6e00bf3, 0xd5a79147, 0x06ca6351, 0x14292967]

def sha256Krow4 : List Nat :=
  [0x27b70a85, 0x2e1b2138, 0x4d2c6dfc, 0x53380d13, 0x650a7354, 0x766a0abb, 0x81c2c92e, 0x92722c85]

def sha256Krow5 : List Nat :=
  [0xa2bfe8a1, 0xa81a664b, 0xc24b8b70, 0xc76c51a3, 0xd192e819, 0xd6990624, 0xf40e3585, 0x106aa070]

def sha256Krow6 : List Nat :=
  [0x19a4c116, 0x1e376c08, 0x2748774c, 0x34b0bcb5, 0x391c0cb3, 0x4ed8aa4a, 0x5b9cca4f, 0x682e6ff3]

def sha256Krow7 : List Nat :=
  [0x748f82ee, 0x78a5636f, 0x84c87814, 0x8cc70208, 0x90befffa, 0xa4506ceb, 0xbef9a3f7, 0xc67178f2]

def sha256K : List Nat :=
  sha256Krow0 ++ sha256Krow1 ++ sha256Krow2 ++ sha256Krow3 ++
  sha256Krow4 ++ sha256Krow5 ++ sha256Krow6 ++ sha256Krow7

/-- One SHA-256 compression round with round constant `k` and schedule word `w`. -/
def sha256Round (kw : Nat × Nat) (s : Hash8) : Hash8 :=
  let t1 := w32 (s.h + bigSigma1 s.e + chFn s.e s.f s.g + kw.1 + kw.2)
  let t2 := w32 (bigSigma0 s.a + majFn s.a s.b s.c)
  ⟨w32 (t1 + t2), s.a, s.b, s.c, w32 (s.d + t1), s.e, s.f, s.g⟩

/-- Big-endian bytes of `n`, `k` bytes wide. -/
def beBytes : Nat → Nat → List Nat
  | 0, _ => []
  | Nat.succ k, n => ((n >>> (8 * k)) % 256) :: beBytes k n

/-- Group a byte list into big-endian 32-bit words. -/
def toWords : List Nat → List Nat
  | a :: b :: c :: d :: rest =>
      ((((a % 256) * 256 + b % 256) * 256 + c % 256) * 256 + d % 256) :: toWords rest
  | _ => []

/-- Extend a 16-word block by one schedule word. -/
def scheduleStep (ws : List Nat) : List Nat :=
  ws ++ [w32 (smallSigma1 (ws.getD (ws.length - 2) 0) + ws.getD (ws.length - 7) 0 +
              smallSigma0 (ws.getD (ws.length - 15) 0) + ws.getD (ws.length - 16) 0)]

/-- The full 64-word message schedule of one block. -/
def schedule (ws : List Nat) : List Nat :=
  (List.range 48).foldl (fun acc _ => scheduleStep acc) ws

/-- Compress a single 64-byte block into the running hash. -/
def compressBlock (s : Hash8) (block : List Nat) : Hash8 :=
  let ws := schedule (toWords block)
  let e := (sha256K.zip ws).foldl (fun st kw => sha256Round kw st) s
  ⟨w32 (s.a + e.a), w32 (s.b + e.b), w32 (s.c + e.c), w32 (s.d + e.d),
   w32 (s.e + e.e), w32 (s.f + e.f), w32 (s.g + e.g), w32 (s.h + e.h)⟩

/-- SHA-256 padding: append `0x80`, zero bytes to 56 mod 64, then the
64-bit big-endian bit length. -/
def padMessage (m : List Nat) : List Nat :=
  let len := m.length
  let r := (len + 1) % 64
  m ++ [128] ++ List.replicate ((120 - r) % 64) 0 ++ beBytes 8 (len * 8)

/-- Split into 64-byte chunks (fuel-driven; fuel `≥ ⌈length/64⌉` suffices). -/
def chunksGo : Nat → List Nat → List (List Nat)
  | _, [] => []
  | 0, _ => []
  | Nat.succ fuel, xs => xs.take 64 :: chunksGo fuel (xs.drop 64)

def chunks64 (m : List Nat) : List (List Nat) := chunksGo m.length m

def digestBytes (s : Hash8) : List Nat :=
  beBytes 4 s.a ++ beBytes 4 s.b ++ beBytes 4 s.c ++ beBytes 4 s.d ++
  beBytes 4 s.e ++ beBytes 4 s.f ++ beBytes 4 s.g ++ beBytes 4 s.h

/-- SHA-256 of a byte buffer, as 32 bytes. -/
def sha256 (m : List Nat) : List Nat :=
  digestBytes ((chunks64 (padMessage m)).foldl compressBlock sha256InitHash)

/-! ## Hex encoding (`hex::encode`, lowercase) and string helpers -/

def hexCharsLow : List Char := ['0', '1', '2', '3', '4', '5', '6', '7']

def hexCharsHigh : List Char := ['8', '9', 'a', 'b', 'c', 'd', 'e', 'f']

def hexCharsL : List Char := hexCharsLow ++ hexCharsHigh

def hexDigit (n : Nat) : Char := hexCharsL.getD (n % 16) '0'

def hexData (bs : List Nat) : List Char :=
  (bs.map (fun b => [hexDigit (b / 16), hexDigit (b % 16)])).flatten

def hexEncode (bs : List Nat) : String := String.mk (hexData bs)

/-- Rust `str::to_lowercase` restricted to the ASCII case mapping. -/
def lowerStr (s : String) : String := String.mk (s.toList.map Char.toLower)

/-- Rust `str::trim`: drop leading and trailing whitespace. -/
def rustTrim (s : String) : String :=
  String.mk (((s.toList.dropWhile Char.isWhitespace).reverse.dropWhile
    Char.isWhitespace).reverse)

/-- Rust `str::split_whitespace().next()`: the first whitespace-delimited
token, or `none` when the string is empty or all whitespace. -/
def firstToken (s : String) : Option String :=
  match s.toList.dropWhile Char.isWhitespace with
  | [] => none
  | c :: rest => some (String.mk ((c :: rest).takeWhile (fun x => !x.isWhitespace)))

/-- Rust `str::trim_start_matches(pattern)` on lists: repeatedly remove a
leading occurrence of `pat` (fuel-driven; each removal is nonempty). -/
def stripAllLoop : Nat → List Char → List Char → List Char
  | 0, s, _ => s
  | Nat.succ fuel, s, pat =>
      if pat ≠ [] ∧ pat.isPrefixOf s then stripAllLoop fuel (s.drop pat.length) pat
      else s

def trimStartMatches (s pat : String) : String :=
  String.mk (stripAllLoop (s.toList.length + 1) s.toList pat.toList)

/-- Rust `str::trim_start_matches('v')`: drop every leading `v`. -/
def trimStartV (s : String) : String :=
  String.mk (s.toList.dropWhile (fun c => c == 'v'))

/-- `n` copies of `s`, appended: the shape of a tag whose head repeats the
tag prefix `n` times. -/
def repeatStr : Nat → String → String
  | 0, _ => ""
  | Nat.succ n, s => s ++ repeatStr n s

/-! ## `src/types.rs`: repository identity and URL construction -/

/-- `RepoInfo` from `src/types.rs`: owner, project name and release tag
prefix of the GitHub repository. -/
structure RepoInfo where
  owner : String
  name : String
  tagPrefix : String
  deriving DecidableEq

/-- `RepoInfo::latest_release_url`. -/
def RepoInfo.latest_release_url (r : RepoInfo) : String :=
  "https://api.github.com/repos/" ++ r.owner ++ "/" ++ r.name ++ "/releases/latest"

/-- `RepoInfo::download_url`. -/
def RepoInfo.download_url (r : RepoInfo) (version platform extension : String) : String :=
  "https://github.com/" ++ r.owner ++ "/" ++ r.name ++ "/releases/download/" ++
    r.tagPrefix ++ version ++ "/" ++ r.name ++ "-" ++ platform ++ "." ++ extension

/-- The checksum sidecar URL built in `perform_update`
(`format!("{download_url}.sha256")`). -/
def checksum_url (downloadUrl : String) : String := downloadUrl ++ ".sha256"

/-- The archive extension chosen in `perform_update`:
`zip` when `cfg!(target_os = "windows")`, `tar.gz` otherwise. -/
def archive_ext (isWindows : Bool) : String := if isWindows then "zip" else "tar.gz"

/-! ## `src/update.rs`: platform detection and version extraction -/

/-- `get_platform_string` as a function of the host OS and architecture;
`none` models the `panic!` on an unsupported combination. -/
def get_platform_string (os arch : String) : Option String :=
  if os = "linux" ∧ arch = "x86_64" then some "x86_64-unknown-linux-gnu"
  else if os = "linux" ∧ arch = "aarch64" then some "aarch64-unknown-linux-gnu"
  else if os = "macos" ∧ arch = "x86_64" then some "x86_64-apple-darwin"
  else if os = "macos" ∧ arch = "aarch64" then some "aarch64-apple-darwin"
  else if os = "windows" ∧ arch = "x86_64" then some "x86_64-pc-windows-msvc"
  else none

/-- The version extraction of `get_latest_version`:
`tag_name.trim_start_matches(repo_info.tag_prefix).trim_start_matches('v')`. -/
def extractVersion (r : RepoInfo) (tag_name : String) : String :=
  trimStartV (trimStartMatches tag_name r.tagPrefix)

/-- `get_latest_version`, with the network interaction abstracted into
`latestResp`: a transport/parse error, or the optional `tag_name` field of
the parsed response. -/
def get_latest_version (r : RepoInfo) (latestResp : Except String (Option String)) :
    Except String String :=
  match latestResp with
  | .error e => .error e
  | .ok none => .error "No tag_name in response"
  | .ok (some tag) => .ok (extractVersion r tag)

/-! ## The staged update flow

`perform_update` and `run_update` are embedded with their effects made
explicit: every network response, the tempdir/extraction outcome, the
filesystem-copy outcomes and the operator's input line are oracle
arguments, and the returned trace lists the stages that were reached, in
order. -/

/-- The stages of one update run, in the order the source reaches them. -/
inductive Stage where
  | fetchMeta
  | fetchArchive
  | fetchChecksum
  | verifyStep
  | extractStep
  | findBinary
  | backupStep
  | installStep
  | chmodStep
  | cleanupStep
  deriving DecidableEq

/-- The observable filesystem state around the Install Target: the target
binary's bytes, its permission mode, and the `.bak` backup file. -/
structure FsState where
  installTarget : Option (List Nat)
  installMode : Option Nat
  backup : Option (List Nat)
  deriving DecidableEq

/-- Result of `perform_update`: `res = none` models the
`get_platform_string` panic; otherwise the `Result<(), String>`. -/
structure POut where
  res : Option (Except String Unit)
  fs : FsState
  trace : List Stage

/-- `response.status().is_success()`: a 2xx HTTP status. -/
def isSuccessStatus (n : Nat) : Bool := decide (200 ≤ n ∧ n < 300)

/-- The binary name looked up in the extracted tree:
`{name}.exe` on windows, `{name}` otherwise. -/
def binary_name (r : RepoInfo) (isWindows : Bool) : String :=
  if isWindows then r.name ++ ".exe" else r.name

/-- Backup-file removal at the end of `perform_update` (best-effort
`fs::remove_file` of the `.bak` path). -/
def cleanupFlow (fs : FsState) (tr : List Stage) : POut :=
  ⟨some (.ok ()), { fs with backup := none }, tr ++ [Stage.cleanupStep]⟩

/-- The `#[cfg(unix)]` permission step: set mode `0o755` on the installed
binary (skipped entirely on windows). -/
def chmodFlow (os : String) (chmodErr : Option String) (fs : FsState)
    (tr : List Stage) : POut :=
  if os == "windows" then cleanupFlow fs tr
  else
    match chmodErr with
    | some e => ⟨some (.error ("Failed to set permissions: " ++ e)), fs,
        tr ++ [Stage.chmodStep]⟩
    | none => cleanupFlow { fs with installMode := some 493 } (tr ++ [Stage.chmodStep])

/-- `fs::copy(&extracted_binary, install_path)` and what follows it. -/
def copyFlow (os : String) (newBytes : List Nat) (installErr chmodErr : Option String)
    (fs : FsState) (tr : List Stage) : POut :=
  match installErr with
  | some e => ⟨some (.error ("Failed to install binary: " ++ e)), fs,
      tr ++ [Stage.installStep]⟩
  | none =>
      chmodFlow os chmodErr { fs with installTarget := some newBytes }
        (tr ++ [Stage.installStep])

/-- `fs::copy(install_path, &backup_path)`: on success the backup holds the
old target bytes; on failure (including a missing target) only a warning is
printed and the state is unchanged. -/
def backupFlow (backupErr : Option String) (fs : FsState) : FsState :=
  match fs.installTarget, backupErr with
  | some bts, none => { fs with backup := some bts }
  | _, _ => fs

/-- Locate the expected binary in the extracted tree and install it. -/
def findFlow (r : RepoInfo) (os : String) (files : List (String × List Nat))
    (backupErr installErr chmodErr : Option String)
    (fs0 : FsState) (tr : List Stage) : POut :=
  let bname := binary_name r (os == "windows")
  let tr := tr ++ [Stage.findBinary]
  match files.lookup bname with
  | none => ⟨some (.error ("Binary " ++ bname ++ " not found in archive")), fs0, tr⟩
  | some newBytes =>
      copyFlow os newBytes installErr chmodErr (backupFlow backupErr fs0)
        (tr ++ [Stage.backupStep])

/-- The extraction/installation tail of `perform_update` (everything after
checksum handling): extract the archive into a scratch directory, find the
binary, back up the target, overwrite it, set permissions on unix, and
remove the backup. -/
def installFlow (r : RepoInfo) (os : String) (tempdirErr : Option String)
    (extractResp : Except String (List (String × List Nat)))
    (backupErr installErr chmodErr : Option String)
    (fs0 : FsState) (tr : List Stage) : POut :=
  let tr := tr ++ [Stage.extractStep]
  match tempdirErr with
  | some e => ⟨some (.error e), fs0, tr⟩
  | none =>
    match extractResp with
    | .error e =>
        ⟨some (.error ((if os == "windows" then "Failed to open zip: "
          else "Failed to extract tar.gz: ") ++ e)), fs0, tr⟩
    | .ok files => findFlow r os files backupErr installErr chmodErr fs0 tr

/-- The stages that the extraction/installation tail can append. -/
def installStages : List Stage :=
  [Stage.extractStep, Stage.findBinary, Stage.backupStep, Stage.installStep,
   Stage.chmodStep, Stage.cleanupStep]

/-- `perform_update` from `src/update.rs`.  `archiveResp` and
`checksumResp` are the two HTTP fetches (transport error, or status code
with body); the archive body is a byte buffer, the checksum body the text
of the sidecar. -/
def perform_update (r : RepoInfo) (version : String) (os arch : String)
    (archiveResp : Except String (Nat × List Nat))
    (checksumResp : Except String (Nat × String))
    (tempdirErr : Option String)
    (extractResp : Except String (List (String × List Nat)))
    (backupErr installErr chmodErr : Option String)
    (fs0 : FsState) : POut :=
  match get_platform_string os arch with
  | none => ⟨none, fs0, []⟩
  | some platform =>
    let isWindows := os == "windows"
    let url := r.download_url version platform (archive_ext isWindows)
    let _curl := checksum_url url
    match archiveResp with
    | .error e => ⟨some (.error e), fs0, [Stage.fetchArchive]⟩
    | .ok (st, bytes) =>
      if isSuccessStatus st then
        match checksumResp with
        | .error e => ⟨some (.error e), fs0, [Stage.fetchArchive, Stage.fetchChecksum]⟩
        | .ok (cst, ctext) =>
          let tr0 := [Stage.fetchArchive, Stage.fetchChecksum]
          if isSuccessStatus cst then
            let expected := (firstToken ctext).getD ctext
            let computed := hexEncode (sha256 bytes)
            if lowerStr computed = lowerStr expected then
              installFlow r os tempdirErr extractResp backupErr installErr chmodErr
                fs0 (tr0 ++ [Stage.verifyStep])
            else
              ⟨some (.error ("Checksum mismatch!\nExpected: " ++ expected ++
                "\nGot: " ++ computed)), fs0, tr0 ++ [Stage.verifyStep]⟩
          else
            installFlow r os tempdirErr extractResp backupErr installErr chmodErr fs0 tr0
      else
        ⟨some (.error ("Download failed: HTTP " ++ toString st)), fs0, [Stage.fetchArchive]⟩

/-- The terminal outcome of `run_update`, one per `return` site. -/
inductive UOutcome where
  | updated
  | alreadyUpToDate
  | cancelled
  | failed
  | panicked
  deriving DecidableEq

/-- Result of `run_update`: the process exit code (`none` when the run
panicked), the terminal outcome, the stage trace and the final filesystem
state. -/
structure RunOut where
  exit : Option Int
  outcome : UOutcome
  trace : List Stage
  fs : FsState

/-- The confirmation test at the prompt:
`matches!(response.trim().to_lowercase().as_str(), "y" | "yes")`. -/
def confirmAffirmative (response : String) : Bool :=
  lowerStr (rustTrim response) == "y" || lowerStr (rustTrim response) == "yes"

/-- `run_update` after the target version is known (`tr` holds the stages
already reached while resolving it). -/
def run_update_rest (r : RepoInfo) (current_version target_version : String)
    (force installDirGiven currentExeOk : Bool) (promptInput : String)
    (os arch : String)
    (archiveResp : Except String (Nat × List Nat))
    (checksumResp : Except String (Nat × String))
    (tempdirErr : Option String)
    (extractResp : Except String (List (String × List Nat)))
    (backupErr installErr chmodErr : Option String)
    (fs0 : FsState) (tr : List Stage) : RunOut :=
  if target_version = current_version ∧ force = false then
    ⟨some 2, .alreadyUpToDate, tr, fs0⟩
  else if installDirGiven = false ∧ currentExeOk = false then
    ⟨some 1, .failed, tr, fs0⟩
  else if force = false ∧ confirmAffirmative promptInput = false then
    ⟨some 0, .cancelled, tr, fs0⟩
  else
    match perform_update r target_version os arch archiveResp checksumResp
        tempdirErr extractResp backupErr installErr chmodErr fs0 with
    | ⟨none, fs, ptr⟩ => ⟨none, .panicked, tr ++ ptr, fs⟩
    | ⟨some (.ok _), fs, ptr⟩ => ⟨some 0, .updated, tr ++ ptr, fs⟩
    | ⟨some (.error _), fs, ptr⟩ => ⟨some 1, .failed, tr ++ ptr, fs⟩

/-- `run_update` from `src/update.rs`.  `version` is the caller-pinned
version; when absent the release-metadata fetch (`get_latest_version`) is
attempted first and its failure exits with code 1. -/
def run_update (r : RepoInfo) (current_version : String) (version : Option String)
    (force installDirGiven currentExeOk : Bool) (promptInput : String)
    (os arch : String)
    (latestResp : Except String (Option String))
    (archiveResp : Except String (Nat × List Nat))
    (checksumResp : Except String (Nat × String))
    (tempdirErr : Option String)
    (extractResp : Except String (List (String × List Nat)))
    (backupErr installErr chmodErr : Option String)
    (fs0 : FsState) : RunOut :=
  match version with
  | some v =>
      run_update_rest r current_version v force installDirGiven currentExeOk
        promptInput os arch archiveResp checksumResp tempdirErr extractResp
        backupErr installErr chmodErr fs0 []
  | none =>
    match get_latest_version r latestResp with
    | .error _ => ⟨some 1, .failed, [Stage.fetchMeta], fs0⟩
    | .ok v =>
        run_update_rest r current_version v force installDirGiven currentExeOk
          promptInput os arch archiveResp checksumResp tempdirErr extractResp
          backupErr installErr chmodErr fs0 [Stage.fetchMeta]

/-- The target version a run works toward: the pinned version, or the
resolved latest version when resolution succeeds. -/
def targetVersionOf (r : RepoInfo) (version : Option String)
    (latestResp : Except String (Option String)) : Option String :=
  match version with
  | some v => some v
  | none => (get_latest_version r latestResp).toOption

/-- The exit code the source returns for each terminal outcome
(`0` updated, `2` already up to date, `0` cancelled, `1` failed). -/
def exitCodeFor : UOutcome → Option Int
  | .updated => some 0
  | .alreadyUpToDate => some 2
  | .cancelled => some 0
  | .failed => some 1
  | .panicked => none

/-- Modelled from the claim's wording (C4), for comparison with the code:
strip ONE leading occurrence of the tag prefix, then ONE leading `v`. -/
def extractVersionOnce (r : RepoInfo) (tag_name : String) : String :=
  let rest :=
    if r.tagPrefix.toList.isPrefixOf tag_name.toList then
      String.mk (tag_name.toList.drop r.tagPrefix.toList.length)
    else tag_name
  match rest.toList with
  | 'v' :: t => String.mk t
  | _ => rest

/-! ## Theorems -/

set_option maxRecDepth 100000

theorem str_toList_append (a b : String) : (a ++ b).toList = a.toList ++ b.toList := rfl

theorem str_append_assoc (a b c : String) : (a ++ b) ++ c = a ++ (b ++ c) :=
  congrArg String.mk (List.append_assoc a.data b.data c.data)

theorem str_append_empty (s : String) : s ++ "" = s :=
  congrArg String.mk (List.append_nil s.data)

theorem sha256_empty_vector :
    hexEncode (sha256 []) =
      "e3b0c44298fc1c149afbf4c8996fb92427ae41e4649b934ca495991b7852b855" := by
  decide

theorem sha256_abc_vector :
    hexEncode (sha256 [97, 98, 99]) =
      "ba7816bf8f01cfea414140de5dae2223b00361a396177a9cb410ff61f20015ad" := by
  decide

theorem stripAllLoop_stop (f : Nat) (s pat : List Char) (h : pat.isPrefixOf s = false) :
    stripAllLoop f s pat = s := by
  cases f with
  | zero => rfl
  | succ f => simp [stripAllLoop, h]

theorem isPrefixOf_ne_nil (p rest : List Char) (h2 : p.isPrefixOf rest = false) :
    p ≠ [] := by
  intro he
  rw [he] at h2
  simp [List.isPrefixOf] at h2

theorem repeatStr_toList_append (n : Nat) (p rest : String) :
    repeatStr (n + 1) p ++ rest = p ++ (repeatStr n p ++ rest) := by
  show (p ++ repeatStr n p) ++ rest = p ++ (repeatStr n p ++ rest)
  rw [str_append_assoc]

theorem repeatStr_length (n : Nat) (p : String) :
    (repeatStr n p).toList.length = n * p.toList.length := by
  induction n with
  | zero => simp [repeatStr]
  | succ n ih =>
    show ((p ++ repeatStr n p).toList).length = _
    rw [str_toList_append, List.length_append, ih, Nat.succ_mul]
    omega

/-- Stripping a fuel-driven repeated prefix: `n` leading copies of `p` are
all removed, whatever remains after them, as long as the fuel covers the
`n` removals and `p` does not occur again at the head of the remainder. -/
theorem stripAllLoop_repeat (p rest : String)
    (h2 : p.toList.isPrefixOf rest.toList = false) :
    ∀ n f, n ≤ f →
      stripAllLoop f ((repeatStr n p ++ rest).toList) p.toList = rest.toList := by
  intro n
  induction n with
  | zero =>
    intro f _
    have hz : (repeatStr 0 p ++ rest).toList = rest.toList := by
      rw [str_toList_append]; rfl
    rw [hz]
    exact stripAllLoop_stop f _ _ h2
  | succ n ih =>
    intro f hf
    cases f with
    | zero => omega
    | succ f =>
      have hL : (repeatStr (n + 1) p ++ rest).toList =
          p.toList ++ (repeatStr n p ++ rest).toList := by
        rw [repeatStr_toList_append, str_toList_append]
      rw [hL]
      have h1 : p.toList ≠ [] := isPrefixOf_ne_nil _ _ h2
      have hpre : p.toList.isPrefixOf
          (p.toList ++ (repeatStr n p ++ rest).toList) = true := by
        simp [List.isPrefixOf_iff_prefix]
      simp only [stripAllLoop, h1, hpre, List.drop_left, ne_eq, not_false_iff,
        and_self, if_true]
      exact ih f (by omega)

/-- C4 counterexample: Rust `trim_start_matches` removes matches
repeatedly, so the code strips EVERY leading occurrence of the prefix and
then EVERY leading `v`, while the claim removes one of each.  Tag
`tool-vv1.2.0` with prefix `tool-` gives `1.2.0` (code) versus `v1.2.0`
(claim); tag `tool-vtool-v1.2.0` with prefix `tool-v` gives `1.2.0`
(code, the prefix is stripped twice) versus `tool-v1.2.0` (claim). -/
theorem claim_C4_cex :
    extractVersion ⟨"acme", "tool", "tool-"⟩ "tool-vv1.2.0" = "1.2.0" ∧
    extractVersionOnce ⟨"acme", "tool", "tool-"⟩ "tool-vv1.2.0" = "v1.2.0" ∧
    extractVersion ⟨"acme", "tool", "tool-"⟩ "tool-vv1.2.0" ≠
      extractVersionOnce ⟨"acme", "tool", "tool-"⟩ "tool-vv1.2.0" ∧
    extractVersion ⟨"acme", "tool", "tool-v"⟩ "tool-vtool-v1.2.0" = "1.2.0" ∧
    extractVersionOnce ⟨"acme", "tool", "tool-v"⟩ "tool-vtool-v1.2.0" =
      "tool-v1.2.0" ∧
    extractVersion ⟨"acme", "tool", "tool-v"⟩ "tool-vtool-v1.2.0" ≠
      extractVersionOnce ⟨"acme", "tool", "tool-v"⟩ "tool-vtool-v1.2.0" := by
  refine ⟨?_, ?_, ?_, ?_, ?_, ?_⟩ <;> decide

/-- C4 (amended): every tag starting with the prefix `P` decomposes as `n`
leading copies of `P` followed by a remainder `R` that does not start with
`P` again; the extracted version strips ALL `n` leading occurrences of `P`
and then ALL leading `v` characters of `R` (Rust `trim_start_matches`
removes matches repeatedly).  In particular tag `tool-v1.2.0` with prefix
`tool-v` yields `1.2.0`. -/
theorem claim_C4 (r : RepoInfo) (n : Nat) (rest : String)
    (h2 : r.tagPrefix.toList.isPrefixOf rest.toList = false) :
    extractVersion r (repeatStr n r.tagPrefix ++ rest) = trimStartV rest := by
  unfold extractVersion trimStartMatches
  rw [stripAllLoop_repeat r.tagPrefix rest h2 n
    ((repeatStr n r.tagPrefix ++ rest).toList.length + 1) ?hfuel]
  case hfuel =>
    have h1 : r.tagPrefix.toList ≠ [] := isPrefixOf_ne_nil _ _ h2
    have hp : 0 < r.tagPrefix.toList.length := List.length_pos.mpr h1
    have hn : n * 1 ≤ n * r.tagPrefix.toList.length := Nat.mul_le_mul_left n hp
    rw [str_toList_append, List.length_append, repeatStr_length]
    omega
  rfl

theorem claim_C4_witness :
    extractVersion ⟨"acme", "tool", "tool-v"⟩ (repeatStr 2 "tool-v" ++ "1.2.0") =
      trimStartV "1.2.0" :=
  claim_C4 ⟨"acme", "tool", "tool-v"⟩ 2 "1.2.0" (by decide)

/-- C8: the archive download URL is exactly
`https://github.com/{owner}/{name}/releases/download/{tagPrefix}{version}/{name}-{platform}.{ext}`
with `ext = zip` on windows and `tar.gz` otherwise, and the checksum
sidecar URL is the download URL with `.sha256` appended. -/
theorem claim_C8 (owner nm tagp version platform : String) (isWindows : Bool) :
    RepoInfo.download_url ⟨owner, nm, tagp⟩ version platform (archive_ext isWindows) =
      "https://github.com/" ++ owner ++ "/" ++ nm ++ "/releases/download/" ++ tagp ++
        version ++ "/" ++ nm ++ "-" ++ platform ++ "." ++
        (if isWindows then "zip" else "tar.gz") ∧
    checksum_url (RepoInfo.download_url ⟨owner, nm, tagp⟩ version platform
        (archive_ext isWindows)) =
      RepoInfo.download_url ⟨owner, nm, tagp⟩ version platform (archive_ext isWindows) ++
        ".sha256" := by
  cases isWindows <;> exact ⟨rfl, rfl⟩

theorem run_update_rest_exit_eq (r : RepoInfo) (cv tv : String)
    (force installDirGiven currentExeOk : Bool) (promptInput : String)
    (os arch : String) (archiveResp : Except String (Nat × List Nat))
    (checksumResp : Except String (Nat × String)) (tempdirErr : Option String)
    (extractResp : Except String (List (String × List Nat)))
    (backupErr installErr chmodErr : Option String) (fs0 : FsState) (tr : List Stage) :
    (run_update_rest r cv tv force installDirGiven currentExeOk promptInput os arch
        archiveResp checksumResp tempdirErr extractResp backupErr installErr
        chmodErr fs0 tr).exit =
      exitCodeFor (run_update_rest r cv tv force installDirGiven currentExeOk promptInput
        os arch archiveResp checksumResp tempdirErr extractResp backupErr installErr
        chmodErr fs0 tr).outcome := by
  unfold run_update_rest
  repeat' split
  all_goals rfl

/-- C7 (amended): `run_update` maps each terminal outcome to a fixed exit
code: Updated and Cancelled both exit 0, AlreadyUpToDate exits 2, Failure
exits 1 (and the unsupported-platform panic produces no exit code).
AlreadyUpToDate is thereby distinguished from the other outcomes, but
Cancelled is NOT distinguishable from Updated by exit code. -/
theorem claim_C7 (r : RepoInfo) (cv : String) (version : Option String)
    (force installDirGiven currentExeOk : Bool) (promptInput : String)
    (os arch : String) (latestResp : Except String (Option String))
    (archiveResp : Except String (Nat × List Nat))
    (checksumResp : Except String (Nat × String)) (tempdirErr : Option String)
    (extractResp : Except String (List (String × List Nat)))
    (backupErr installErr chmodErr : Option String) (fs0 : FsState) :
    (run_update r cv version force installDirGiven currentExeOk promptInput os arch
        latestResp archiveResp checksumResp tempdirErr extractResp backupErr
        installErr chmodErr fs0).exit =
      exitCodeFor (run_update r cv version force installDirGiven currentExeOk promptInput
        os arch latestResp archiveResp checksumResp tempdirErr extractResp backupErr
        installErr chmodErr fs0).outcome := by
  unfold run_update
  cases version with
  | some v => exact run_update_rest_exit_eq ..
  | none =>
    cases h : get_latest_version r latestResp with
    | error e => simp [h]; rfl
    | ok v => simp [h]; exact run_update_rest_exit_eq ..

/-- C7 counterexample: a run that installs an update and a run the
operator cancels both exit with code 0, so the four terminal outcomes are
not pairwise distinguishable by exit signal (the claim asserts the caller
can distinguish them). -/
theorem claim_C7_cex :
    (run_update ⟨"acme", "tool", "tool-v"⟩ "1.0.0" (some "2.0.0") true true true ""
        "linux" "x86_64" (.ok none) (.ok (200, [])) (.ok (404, "")) none
        (.ok [("tool", [1])]) none none none ⟨some [7], some 493, none⟩).outcome =
      UOutcome.updated ∧
    (run_update ⟨"acme", "tool", "tool-v"⟩ "1.0.0" (some "2.0.0") true true true ""
        "linux" "x86_64" (.ok none) (.ok (200, [])) (.ok (404, "")) none
        (.ok [("tool", [1])]) none none none ⟨some [7], some 493, none⟩).exit = some 0 ∧
    (run_update ⟨"acme", "tool", "tool-v"⟩ "1.0.0" (some "2.0.0") false true true "n"
        "linux" "x86_64" (.ok none) (.ok (200, [])) (.ok (404, "")) none
        (.ok [("tool", [1])]) none none none ⟨some [7], some 493, none⟩).outcome =
      UOutcome.cancelled ∧
    (run_update ⟨"acme", "tool", "tool-v"⟩ "1.0.0" (some "2.0.0") false true true "n"
        "linux" "x86_64" (.ok none) (.ok (200, [])) (.ok (404, "")) none
        (.ok [("tool", [1])]) none none none ⟨some [7], some 493, none⟩).exit = some 0 := by
  refine ⟨rfl, rfl, rfl, rfl⟩

theorem chmodFlow_spec (os : String) (ce : Option String) (fs : FsState)
    (tr : List Stage) :
    ∃ s, (chmodFlow os ce fs tr).trace = tr ++ s ∧ ∀ x ∈ s, x ∈ installStages := by
  unfold chmodFlow cleanupFlow
  repeat' split
  · exact ⟨[Stage.cleanupStep], rfl, by simp [installStages]⟩
  · exact ⟨[Stage.chmodStep], rfl, by simp [installStages]⟩
  · exact ⟨[Stage.chmodStep, Stage.cleanupStep], by simp, by simp [installStages]⟩

theorem copyFlow_spec (os : String) (newBytes : List Nat) (ie ce : Option String)
    (fs : FsState) (tr : List Stage) :
    ∃ s, (copyFlow os newBytes ie ce fs tr).trace = tr ++ s ∧
      ∀ x ∈ s, x ∈ installStages := by
  unfold copyFlow
  cases ie with
  | some e => exact ⟨[Stage.installStep], rfl, by simp [installStages]⟩
  | none =>
    obtain ⟨s, hs, hsub⟩ := chmodFlow_spec os ce { fs with installTarget := some newBytes }
      (tr ++ [Stage.installStep])
    refine ⟨Stage.installStep :: s, ?_, ?_⟩
    · rw [hs]; simp
    · intro x hx
      rcases List.mem_cons.mp hx with h | h
      · simp [h, installStages]
      · exact hsub x h

theorem findFlow_spec (r : RepoInfo) (os : String) (files : List (String × List Nat))
    (be ie ce : Option String) (fs0 : FsState) (tr : List Stage) :
    ∃ s, (findFlow r os files be ie ce fs0 tr).trace = tr ++ (Stage.findBinary :: s) ∧
      ∀ x ∈ s, x ∈ installStages := by
  unfold findFlow
  cases hlk : files.lookup (binary_name r (os == "windows")) with
  | none => exact ⟨[], by simp [hlk], by simp⟩
  | some nb =>
    obtain ⟨s, hs, hsub⟩ := copyFlow_spec os nb ie ce (backupFlow be fs0)
      ((tr ++ [Stage.findBinary]) ++ [Stage.backupStep])
    refine ⟨Stage.backupStep :: s, ?_, ?_⟩
    · simp only [hlk]; rw [hs]; simp
    · intro x hx
      rcases List.mem_cons.mp hx with h | h
      · simp [h, installStages]
      · exact hsub x h

theorem installFlow_spec (r : RepoInfo) (os : String) (tempdirErr : Option String)
    (extractResp : Except String (List (String × List Nat)))
    (backupErr installErr chmodErr : Option String) (fs0 : FsState) (tr : List Stage) :
    ∃ s, (installFlow r os tempdirErr extractResp backupErr installErr chmodErr
        fs0 tr).trace = tr ++ (Stage.extractStep :: s) ∧
      ∀ x ∈ s, x ∈ installStages := by
  unfold installFlow
  cases tempdirErr with
  | some e => exact ⟨[], by simp, by simp⟩
  | none =>
    cases extractResp with
    | error e => exact ⟨[], by simp, by simp⟩
    | ok files =>
      obtain ⟨s, hs, hsub⟩ := findFlow_spec r os files backupErr installErr chmodErr
        fs0 (tr ++ [Stage.extractStep])
      refine ⟨Stage.findBinary :: s, ?_, ?_⟩
      · rw [hs]; simp
      · intro x hx
        rcases List.mem_cons.mp hx with h | h
        · simp [h, installStages]
        · exact hsub x h

theorem installFlow_mem_mono (r : RepoInfo) (os : String) (tempdirErr : Option String)
    (extractResp : Except String (List (String × List Nat)))
    (backupErr installErr chmodErr : Option String) (fs0 : FsState) (tr : List Stage)
    (x : Stage) (hx : x ∈ tr) :
    x ∈ (installFlow r os tempdirErr extractResp backupErr installErr chmodErr
      fs0 tr).trace := by
  obtain ⟨s, hs, _⟩ := installFlow_spec r os tempdirErr extractResp backupErr
    installErr chmodErr fs0 tr
  rw [hs]
  exact List.mem_append_left _ hx

theorem installFlow_extract_mem (r : RepoInfo) (os : String) (tempdirErr : Option String)
    (extractResp : Except String (List (String × List Nat)))
    (backupErr installErr chmodErr : Option String) (fs0 : FsState) (tr : List Stage) :
    Stage.extractStep ∈ (installFlow r os tempdirErr extractResp backupErr installErr
      chmodErr fs0 tr).trace := by
  obtain ⟨s, hs, _⟩ := installFlow_spec r os tempdirErr extractResp backupErr
    installErr chmodErr fs0 tr
  rw [hs]
  simp

theorem installFlow_mem_inv (r : RepoInfo) (os : String) (tempdirErr : Option String)
    (extractResp : Except String (List (String × List Nat)))
    (backupErr installErr chmodErr : Option String) (fs0 : FsState) (tr : List Stage)
    (x : Stage) (hnew : x ∉ installStages)
    (hx : x ∈ (installFlow r os tempdirErr extractResp backupErr installErr chmodErr
      fs0 tr).trace) :
    x ∈ tr := by
  obtain ⟨s, hs, hsub⟩ := installFlow_spec r os tempdirErr extractResp backupErr
    installErr chmodErr fs0 tr
  rw [hs] at hx
  rcases List.mem_append.mp hx with h | h
  · exact h
  · rcases List.mem_cons.mp h with h | h
    · exact absurd (by simp [h, installStages]) hnew
    · exact absurd (hsub x h) hnew

theorem perform_platform_none (r : RepoInfo) (v os arch : String)
    (archiveResp : Except String (Nat × List Nat))
    (checksumResp : Except String (Nat × String)) (tempdirErr : Option String)
    (extractResp : Except String (List (String × List Nat)))
    (backupErr installErr chmodErr : Option String) (fs0 : FsState)
    (hp : get_platform_string os arch = none) :
    perform_update r v os arch archiveResp checksumResp tempdirErr extractResp
      backupErr installErr chmodErr fs0 = ⟨none, fs0, []⟩ := by
  unfold perform_update
  rw [hp]

theorem perform_fetch_mem (r : RepoInfo) (v os arch p : String)
    (archiveResp : Except String (Nat × List Nat))
    (checksumResp : Except String (Nat × String)) (tempdirErr : Option String)
    (extractResp : Except String (List (String × List Nat)))
    (backupErr installErr chmodErr : Option String) (fs0 : FsState)
    (hp : get_platform_string os arch = some p) :
    Stage.fetchArchive ∈ (perform_update r v os arch archiveResp checksumResp
      tempdirErr extractResp backupErr installErr chmodErr fs0).trace := by
  unfold perform_update
  rw [hp]
  cases archiveResp with
  | error e => simp
  | ok pair =>
    obtain ⟨st, bytes⟩ := pair
    by_cases hst : isSuccessStatus st = true
    · simp only [hst, if_true]
      cases checksumResp with
      | error e => simp
      | ok cp =>
        obtain ⟨cst, ctext⟩ := cp
        by_cases hcst : isSuccessStatus cst = true
        · simp only [hcst, if_true]
          by_cases hv : lowerStr (hexEncode (sha256 bytes)) =
              lowerStr ((firstToken ctext).getD ctext)
          · rw [if_pos hv]
            apply installFlow_mem_mono
            simp
          · rw [if_neg hv]
            simp
        · simp only [Bool.not_eq_true] at hcst
          simp only [hcst, Bool.false_eq_true, if_false]
          apply installFlow_mem_mono
          simp
    · simp only [Bool.not_eq_true] at hst
      simp only [hst, Bool.false_eq_true, if_false]
      simp

theorem run_update_rest_trace_of_platform_none (r : RepoInfo) (cv tv : String)
    (force installDirGiven currentExeOk : Bool) (promptInput : String)
    (os arch : String) (archiveResp : Except String (Nat × List Nat))
    (checksumResp : Except String (Nat × String)) (tempdirErr : Option String)
    (extractResp : Except String (List (String × List Nat)))
    (backupErr installErr chmodErr : Option String) (fs0 : FsState) (tr : List Stage)
    (hp : get_platform_string os arch = none) :
    (run_update_rest r cv tv force installDirGiven currentExeOk promptInput os arch
      archiveResp checksumResp tempdirErr extractResp backupErr installErr chmodErr
      fs0 tr).trace = tr := by
  have hperf := perform_platform_none r tv os arch archiveResp checksumResp tempdirErr
    extractResp backupErr installErr chmodErr fs0 hp
  unfold run_update_rest
  repeat' split
  all_goals simp_all

/-- C6 (amended): on an unsupported OS/architecture pair the archive and
checksum fetches are never reached — the platform panic in
`perform_update` precedes them — but the release-metadata request is NOT
prevented: it happens before platform detection whenever no explicit
version is pinned (see the counterexample). -/
theorem claim_C6 (r : RepoInfo) (cv : String) (version : Option String)
    (force installDirGiven currentExeOk : Bool) (promptInput : String)
    (os arch : String) (latestResp : Except String (Option String))
    (archiveResp : Except String (Nat × List Nat))
    (checksumResp : Except String (Nat × String)) (tempdirErr : Option String)
    (extractResp : Except String (List (String × List Nat)))
    (backupErr installErr chmodErr : Option String) (fs0 : FsState)
    (hp : get_platform_string os arch = none) :
    Stage.fetchArchive ∉ (run_update r cv version force installDirGiven currentExeOk
        promptInput os arch latestResp archiveResp checksumResp tempdirErr extractResp
        backupErr installErr chmodErr fs0).trace ∧
    Stage.fetchChecksum ∉ (run_update r cv version force installDirGiven currentExeOk
        promptInput os arch latestResp archiveResp checksumResp tempdirErr extractResp
        backupErr installErr chmodErr fs0).trace := by
  unfold run_update
  cases version with
  | some v =>
    rw [run_update_rest_trace_of_platform_none r cv v force installDirGiven currentExeOk
      promptInput os arch archiveResp checksumResp tempdirErr extractResp backupErr
      installErr chmodErr fs0 [] hp]
    simp
  | none =>
    cases hgl : get_latest_version r latestResp with
    | error e => simp [hgl]
    | ok v =>
      simp only [hgl]
      rw [run_update_rest_trace_of_platform_none r cv v force installDirGiven currentExeOk
        promptInput os arch archiveResp checksumResp tempdirErr extractResp backupErr
        installErr chmodErr fs0 [Stage.fetchMeta] hp]
      simp

theorem claim_C6_witness :
    Stage.fetchArchive ∉ (run_update ⟨"acme", "tool", "tool-v"⟩ "1.0.0" none true true
        true "" "freebsd" "riscv64" (.ok (some "tool-v9.9.9")) (.ok (200, []))
        (.ok (404, "")) none (.ok []) none none none
        ⟨some [7], some 493, none⟩).trace ∧
    Stage.fetchChecksum ∉ (run_update ⟨"acme", "tool", "tool-v"⟩ "1.0.0" none true true
        true "" "freebsd" "riscv64" (.ok (some "tool-v9.9.9")) (.ok (200, []))
        (.ok (404, "")) none (.ok []) none none none
        ⟨some [7], some 493, none⟩).trace :=
  claim_C6 ⟨"acme", "tool", "tool-v"⟩ "1.0.0" none true true true "" "freebsd"
    "riscv64" (.ok (some "tool-v9.9.9")) (.ok (200, [])) (.ok (404, "")) none
    (.ok []) none none none ⟨some [7], some 493, none⟩ rfl

/-- C6 counterexample: on the unsupported platform `freebsd/riscv64` with
no pinned version, the release-metadata fetch IS reached (and the run then
dies in the platform panic, with no exit code), contradicting the claim
that no fetch attempt at all is reached on an unsupported platform. -/
theorem claim_C6_cex :
    get_platform_string "freebsd" "riscv64" = none ∧
    Stage.fetchMeta ∈ (run_update ⟨"acme", "tool", "tool-v"⟩ "1.0.0" none true true
        true "" "freebsd" "riscv64" (.ok (some "tool-v9.9.9")) (.ok (200, []))
        (.ok (404, "")) none (.ok []) none none none
        ⟨some [7], some 493, none⟩).trace ∧
    (run_update ⟨"acme", "tool", "tool-v"⟩ "1.0.0" none true true true "" "freebsd"
        "riscv64" (.ok (some "tool-v9.9.9")) (.ok (200, [])) (.ok (404, "")) none
        (.ok []) none none none ⟨some [7], some 493, none⟩).outcome =
      UOutcome.panicked := by
  refine ⟨rfl, by decide, rfl⟩

theorem run_update_rest_fetch_mem (r : RepoInfo) (cv tv : String)
    (force installDirGiven currentExeOk : Bool) (promptInput : String)
    (os arch p : String) (archiveResp : Except String (Nat × List Nat))
    (checksumResp : Except String (Nat × String)) (tempdirErr : Option String)
    (extractResp : Except String (List (String × List Nat)))
    (backupErr installErr chmodErr : Option String) (fs0 : FsState) (tr : List Stage)
    (hf : force = true) (hexe : installDirGiven = true ∨ currentExeOk = true)
    (hp : get_platform_string os arch = some p) :
    Stage.fetchArchive ∈ (run_update_rest r cv tv force installDirGiven currentExeOk
      promptInput os arch archiveResp checksumResp tempdirErr extractResp backupErr
      installErr chmodErr fs0 tr).trace := by
  unfold run_update_rest
  have hcond1 : ¬(tv = cv ∧ force = false) := by simp [hf]
  rw [if_neg hcond1]
  have hcond2 : ¬(installDirGiven = false ∧ currentExeOk = false) := by
    rcases hexe with h | h <;> simp [h]
  rw [if_neg hcond2]
  have hcond3 : ¬(force = false ∧ confirmAffirmative promptInput = false) := by simp [hf]
  rw [if_neg hcond3]
  have hm := perform_fetch_mem r tv os arch p archiveResp checksumResp tempdirErr
    extractResp backupErr installErr chmodErr fs0 hp
  split <;> (rename_i fs ptr heq; rw [heq] at hm; exact List.mem_append_right _ hm)

/-- C5: when the target version string equals the current version string
and force is off, the run exits with code 2 (AlreadyUpToDate) and the
archive fetch is never reached; with force on, the run always reaches the
archive fetch (whatever the two version strings are, equal included),
provided the install path resolves and the platform is supported.
Up-to-dateness is string equality of the two version strings — the model
compares them with `=` on `String` and nothing else. -/
theorem claim_C5 (r : RepoInfo) (cv : String) (version : Option String)
    (force installDirGiven currentExeOk : Bool) (promptInput : String)
    (os arch : String) (latestResp : Except String (Option String))
    (archiveResp : Except String (Nat × List Nat))
    (checksumResp : Except String (Nat × String)) (tempdirErr : Option String)
    (extractResp : Except String (List (String × List Nat)))
    (backupErr installErr chmodErr : Option String) (fs0 : FsState) :
    (targetVersionOf r version latestResp = some cv → force = false →
      (run_update r cv version force installDirGiven currentExeOk promptInput os arch
          latestResp archiveResp checksumResp tempdirErr extractResp backupErr
          installErr chmodErr fs0).exit = some 2 ∧
      (run_update r cv version force installDirGiven currentExeOk promptInput os arch
          latestResp archiveResp checksumResp tempdirErr extractResp backupErr
          installErr chmodErr fs0).outcome = UOutcome.alreadyUpToDate ∧
      Stage.fetchArchive ∉ (run_update r cv version force installDirGiven currentExeOk
          promptInput os arch latestResp archiveResp checksumResp tempdirErr
          extractResp backupErr installErr chmodErr fs0).trace) ∧
    (∀ tv, targetVersionOf r version latestResp = some tv → force = true →
      (installDirGiven = true ∨ currentExeOk = true) →
      (get_platform_string os arch).isSome = true →
      Stage.fetchArchive ∈ (run_update r cv version force installDirGiven currentExeOk
          promptInput os arch latestResp archiveResp checksumResp tempdirErr
          extractResp backupErr installErr chmodErr fs0).trace) := by
  constructor
  · intro ht hf
    subst hf
    cases version with
    | some v =>
      simp only [targetVersionOf, Option.some.injEq] at ht
      subst ht
      unfold run_update run_update_rest
      simp
    | none =>
      simp only [targetVersionOf] at ht
      cases hgl : get_latest_version r latestResp with
      | error e => rw [hgl] at ht; simp [Except.toOption] at ht
      | ok v =>
        rw [hgl] at ht
        simp only [Except.toOption, Option.some.injEq] at ht
        subst ht
        unfold run_update
        rw [hgl]
        unfold run_update_rest
        simp
  · intro tv ht hf hexe hplat
    obtain ⟨p, hp⟩ := Option.isSome_iff_exists.mp hplat
    cases version with
    | some v =>
      simp only [targetVersionOf, Option.some.injEq] at ht
      subst ht
      unfold run_update
      exact run_update_rest_fetch_mem r cv v force installDirGiven currentExeOk
        promptInput os arch p archiveResp checksumResp tempdirErr extractResp
        backupErr installErr chmodErr fs0 [] hf hexe hp
    | none =>
      simp only [targetVersionOf] at ht
      cases hgl : get_latest_version r latestResp with
      | error e => rw [hgl] at ht; simp [Except.toOption] at ht
      | ok v =>
        rw [hgl] at ht
        simp only [Except.toOption, Option.some.injEq] at ht
        subst ht
        unfold run_update
        rw [hgl]
        exact run_update_rest_fetch_mem r cv v force installDirGiven currentExeOk
          promptInput os arch p archiveResp checksumResp tempdirErr extractResp
          backupErr installErr chmodErr fs0 [Stage.fetchMeta] hf hexe hp

theorem claim_C5_witness :
    ((run_update ⟨"acme", "tool", "tool-v"⟩ "1.0.0" (some "1.0.0") false true true ""
        "linux" "x86_64" (.ok none) (.ok (200, [])) (.ok (404, "")) none
        (.ok [("tool", [1])]) none none none ⟨some [7], some 493, none⟩).exit = some 2 ∧
      (run_update ⟨"acme", "tool", "tool-v"⟩ "1.0.0" (some "1.0.0") false true true ""
        "linux" "x86_64" (.ok none) (.ok (200, [])) (.ok (404, "")) none
        (.ok [("tool", [1])]) none none none
        ⟨some [7], some 493, none⟩).outcome = UOutcome.alreadyUpToDate ∧
      Stage.fetchArchive ∉ (run_update ⟨"acme", "tool", "tool-v"⟩ "1.0.0"
        (some "1.0.0") false true true "" "linux" "x86_64" (.ok none) (.ok (200, []))
        (.ok (404, "")) none (.ok [("tool", [1])]) none none none
        ⟨some [7], some 493, none⟩).trace) ∧
    Stage.fetchArchive ∈ (run_update ⟨"acme", "tool", "tool-v"⟩ "1.0.0"
        (some "1.0.0") true true true "" "linux" "x86_64" (.ok none) (.ok (200, []))
        (.ok (404, "")) none (.ok [("tool", [1])]) none none none
        ⟨some [7], some 493, none⟩).trace :=
  ⟨(claim_C5 ⟨"acme", "tool", "tool-v"⟩ "1.0.0" (some "1.0.0") false true true ""
      "linux" "x86_64" (.ok none) (.ok (200, [])) (.ok (404, "")) none
      (.ok [("tool", [1])]) none none none ⟨some [7], some 493, none⟩).1 rfl rfl,
   (claim_C5 ⟨"acme", "tool", "tool-v"⟩ "1.0.0" (some "1.0.0") true true true ""
      "linux" "x86_64" (.ok none) (.ok (200, [])) (.ok (404, "")) none
      (.ok [("tool", [1])]) none none none ⟨some [7], some 493, none⟩).2
     "1.0.0" rfl rfl (Or.inl rfl) rfl⟩

theorem confirmAffirmative_false_iff (p : String) :
    confirmAffirmative p = false ↔
      lowerStr (rustTrim p) ≠ "y" ∧ lowerStr (rustTrim p) ≠ "yes" := by
  simp [confirmAffirmative]

/-- C9: at the confirmation prompt (non-forced run, target differing from
current, resolvable install path) the run is cancelled — outcome
Cancelled, exit code 0 — exactly when the operator's line, trimmed and
lowercased, is neither `y` nor `yes`; any other line (the empty line
included) cancels, so the default answer is No. -/
theorem claim_C9 (r : RepoInfo) (cv tv : String) (version : Option String)
    (force installDirGiven currentExeOk : Bool) (promptInput : String)
    (os arch : String) (latestResp : Except String (Option String))
    (archiveResp : Except String (Nat × List Nat))
    (checksumResp : Except String (Nat × String)) (tempdirErr : Option String)
    (extractResp : Except String (List (String × List Nat)))
    (backupErr installErr chmodErr : Option String) (fs0 : FsState)
    (hf : force = false) (ht : targetVersionOf r version latestResp = some tv)
    (hne : tv ≠ cv) (hexe : installDirGiven = true ∨ currentExeOk = true) :
    ((run_update r cv version force installDirGiven currentExeOk promptInput os arch
        latestResp archiveResp checksumResp tempdirErr extractResp backupErr
        installErr chmodErr fs0).outcome = UOutcome.cancelled ∧
     (run_update r cv version force installDirGiven currentExeOk promptInput os arch
        latestResp archiveResp checksumResp tempdirErr extractResp backupErr
        installErr chmodErr fs0).exit = some 0) ↔
      (lowerStr (rustTrim promptInput) ≠ "y" ∧
       lowerStr (rustTrim promptInput) ≠ "yes") := by
  rw [← confirmAffirmative_false_iff]
  have main : ∀ tr : List Stage,
      ((run_update_rest r cv tv force installDirGiven currentExeOk promptInput os arch
          archiveResp checksumResp tempdirErr extractResp backupErr installErr
          chmodErr fs0 tr).outcome = UOutcome.cancelled ∧
       (run_update_rest r cv tv force installDirGiven currentExeOk promptInput os arch
          archiveResp checksumResp tempdirErr extractResp backupErr installErr
          chmodErr fs0 tr).exit = some 0) ↔
        confirmAffirmative promptInput = false := by
    intro tr
    unfold run_update_rest
    have hcond1 : ¬(tv = cv ∧ force = false) := by simp [hne]
    rw [if_neg hcond1]
    have hcond2 : ¬(installDirGiven = false ∧ currentExeOk = false) := by
      rcases hexe with h | h <;> simp [h]
    rw [if_neg hcond2]
    cases hc : confirmAffirmative promptInput with
    | false =>
      rw [if_pos ⟨hf, rfl⟩]
      simp
    | true =>
      rw [if_neg (by simp)]
      refine iff_of_false ?_ (by simp)
      split <;> simp
  cases version with
  | some v =>
    simp only [targetVersionOf, Option.some.injEq] at ht
    subst ht
    unfold run_update
    exact main []
  | none =>
    simp only [targetVersionOf] at ht
    cases hgl : get_latest_version r latestResp with
    | error e => rw [hgl] at ht; simp [Except.toOption] at ht
    | ok v =>
      rw [hgl] at ht
      simp only [Except.toOption, Option.some.injEq] at ht
      subst ht
      unfold run_update
      rw [hgl]
      exact main [Stage.fetchMeta]

theorem claim_C9_witness :
    (((run_update ⟨"acme", "tool", "tool-v"⟩ "1.0.0" (some "2.0.0") false true true
        "  YES " "linux" "x86_64" (.ok none) (.ok (200, [])) (.ok (404, "")) none
        (.ok [("tool", [1])]) none none none
        ⟨some [7], some 493, none⟩).outcome = UOutcome.cancelled ∧
      (run_update ⟨"acme", "tool", "tool-v"⟩ "1.0.0" (some "2.0.0") false true true
        "  YES " "linux" "x86_64" (.ok none) (.ok (200, [])) (.ok (404, "")) none
        (.ok [("tool", [1])]) none none none
        ⟨some [7], some 493, none⟩).exit = some 0) ↔
      (lowerStr (rustTrim "  YES ") ≠ "y" ∧ lowerStr (rustTrim "  YES ") ≠ "yes")) :=
  claim_C9 ⟨"acme", "tool", "tool-v"⟩ "1.0.0" "2.0.0" (some "2.0.0") false true true
    "  YES " "linux" "x86_64" (.ok none) (.ok (200, [])) (.ok (404, "")) none
    (.ok [("tool", [1])]) none none none ⟨some [7], some 493, none⟩ rfl rfl
    (by decide) (Or.inl rfl)

theorem beBytes_length (k n : Nat) : (beBytes k n).length = k := by
  induction k generalizing n with
  | zero => rfl
  | succ k ih => simp [beBytes, ih]

theorem sha256_length (m : List Nat) : (sha256 m).length = 32 := by
  simp [sha256, digestBytes, beBytes_length]

theorem hexData_cons (b : Nat) (bs : List Nat) :
    hexData (b :: bs) = hexDigit (b / 16) :: hexDigit (b % 16) :: hexData bs := rfl

theorem hexData_length (bs : List Nat) : (hexData bs).length = 2 * bs.length := by
  induction bs with
  | nil => rfl
  | cons b t ih =>
    rw [hexData_cons]
    simp only [List.length_cons, ih]
    omega

theorem hexDigit_mem (n : Nat) : hexDigit n ∈ hexCharsL := by
  have h : n % 16 < 16 := Nat.mod_lt _ (by decide)
  have hall : ∀ m, m < 16 → hexCharsL.getD m '0' ∈ hexCharsL := by decide
  exact hall _ h

theorem hexData_mem (bs : List Nat) (c : Char) (hc : c ∈ hexData bs) :
    c ∈ hexCharsL := by
  induction bs with
  | nil => simp [hexData] at hc
  | cons b t ih =>
    rw [hexData_cons] at hc
    rcases List.mem_cons.mp hc with h | hc2
    · rw [h]; exact hexDigit_mem _
    · rcases List.mem_cons.mp hc2 with h | hc3
      · rw [h]; exact hexDigit_mem _
      · exact ih hc3

theorem ws_toLower (c : Char) (h : c.isWhitespace = true) : c.toLower = c := by
  have hc : c = ' ' ∨ c = '\t' ∨ c = '\r' ∨ c = '\n' := by
    simpa [Char.isWhitespace, or_assoc] using h
  rcases hc with rfl | rfl | rfl | rfl <;> decide

theorem hexChar_toLower (c : Char) (h : c ∈ hexCharsL) : c.toLower = c := by
  have hall : ∀ x ∈ hexCharsL, x.toLower = x := by decide
  exact hall c h

theorem hexChar_not_ws (c : Char) (h : c ∈ hexCharsL) : c.isWhitespace = false := by
  have hall : ∀ x ∈ hexCharsL, x.isWhitespace = false := by decide
  exact hall c h

/-- A computed hex digest (64 lowercase hex characters) can never compare
equal, case-insensitively, to an empty or all-whitespace string. -/
theorem lower_hex_ne_ws (B : List Nat) (t : String)
    (hws : ∀ c ∈ t.toList, c.isWhitespace = true) :
    lowerStr (hexEncode (sha256 B)) ≠ lowerStr t := by
  intro heq
  have hdata : (hexData (sha256 B)).map Char.toLower = t.toList.map Char.toLower :=
    congrArg String.data heq
  have hlen : (hexData (sha256 B)).length = 64 := by
    rw [hexData_length, sha256_length]
  cases hd : hexData (sha256 B) with
  | nil => rw [hd] at hlen; simp at hlen
  | cons c0 rest =>
    cases hts : t.toList with
    | nil =>
      rw [hd, hts] at hdata
      simp at hdata
    | cons w0 wrest =>
      rw [hd, hts] at hdata
      simp only [List.map_cons, List.cons.injEq] at hdata
      have hc0 : c0 ∈ hexCharsL := hexData_mem _ _ (by rw [hd]; exact List.mem_cons_self _ _)
      have hw0 : w0.isWhitespace = true := hws w0 (by rw [hts]; exact List.mem_cons_self _ _)
      have h1 : c0 = w0 := by
        have := hdata.1
        rwa [hexChar_toLower c0 hc0, ws_toLower w0 hw0] at this
      have h2 := hexChar_not_ws c0 hc0
      rw [h1, hw0] at h2
      simp at h2

/-- C1: with the archive and its checksum sidecar both fetched with success
status, verification compares the first whitespace-delimited token of the
sidecar body with the hex SHA-256 of the archive bytes, case-insensitively:
on a match the run performs the verification step and proceeds to
extraction; on a mismatch `perform_update` returns the checksum-mismatch
error whose message carries both the expected and the computed digest, no
later stage runs, and the filesystem is untouched. -/
theorem claim_C1 (r : RepoInfo) (v os arch p : String) (ast cst : Nat)
    (B : List Nat) (ctext : String) (tempdirErr : Option String)
    (extractResp : Except String (List (String × List Nat)))
    (backupErr installErr chmodErr : Option String) (fs0 : FsState)
    (hp : get_platform_string os arch = some p)
    (hst : isSuccessStatus ast = true) (hcst : isSuccessStatus cst = true) :
    (lowerStr ((firstToken ctext).getD ctext) = lowerStr (hexEncode (sha256 B)) →
      Stage.verifyStep ∈ (perform_update r v os arch (.ok (ast, B)) (.ok (cst, ctext))
          tempdirErr extractResp backupErr installErr chmodErr fs0).trace ∧
      Stage.extractStep ∈ (perform_update r v os arch (.ok (ast, B)) (.ok (cst, ctext))
          tempdirErr extractResp backupErr installErr chmodErr fs0).trace) ∧
    (lowerStr ((firstToken ctext).getD ctext) ≠ lowerStr (hexEncode (sha256 B)) →
      ∃ msg,
        (perform_update r v os arch (.ok (ast, B)) (.ok (cst, ctext)) tempdirErr
            extractResp backupErr installErr chmodErr fs0).res =
          some (.error msg) ∧
        (∃ s1 s2, msg = s1 ++ (firstToken ctext).getD ctext ++ s2) ∧
        (∃ s3 s4, msg = s3 ++ hexEncode (sha256 B) ++ s4) ∧
        Stage.extractStep ∉ (perform_update r v os arch (.ok (ast, B)) (.ok (cst, ctext))
            tempdirErr extractResp backupErr installErr chmodErr fs0).trace ∧
        (perform_update r v os arch (.ok (ast, B)) (.ok (cst, ctext)) tempdirErr
            extractResp backupErr installErr chmodErr fs0).fs = fs0) := by
  constructor
  · intro hmatch
    have hcond : lowerStr (hexEncode (sha256 B)) =
        lowerStr ((firstToken ctext).getD ctext) := hmatch.symm
    simp only [perform_update, hp, hst, hcst, eq_self_iff_true, if_true]
    rw [if_pos hcond]
    constructor
    · apply installFlow_mem_mono
      simp
    · exact installFlow_extract_mem ..
  · intro hmiss
    have hne : ¬(lowerStr (hexEncode (sha256 B)) =
        lowerStr ((firstToken ctext).getD ctext)) := fun h => hmiss h.symm
    simp only [perform_update, hp, hst, hcst, eq_self_iff_true, if_true]
    rw [if_neg hne]
    refine ⟨"Checksum mismatch!\nExpected: " ++ (firstToken ctext).getD ctext ++
      "\nGot: " ++ hexEncode (sha256 B), rfl, ?_, ?_, by simp, rfl⟩
    · exact ⟨"Checksum mismatch!\nExpected: ", "\nGot: " ++ hexEncode (sha256 B),
        by rw [str_append_assoc]⟩
    · exact ⟨"Checksum mismatch!\nExpected: " ++ (firstToken ctext).getD ctext ++
        "\nGot: ", "", by rw [str_append_empty]⟩

theorem claim_C1_witness :
    Stage.verifyStep ∈ (perform_update ⟨"acme", "tool", "tool-v"⟩ "1.0.1" "linux"
        "x86_64" (.ok (200, []))
        (.ok (200,
          "E3B0C44298FC1C149AFBF4C8996FB92427AE41E4649B934CA495991B7852B855  tool-x86_64-unknown-linux-gnu.tar.gz"))
        none (.ok [("tool", [1])]) none none none
        ⟨some [7], some 493, none⟩).trace ∧
    Stage.extractStep ∈ (perform_update ⟨"acme", "tool", "tool-v"⟩ "1.0.1" "linux"
        "x86_64" (.ok (200, []))
        (.ok (200,
          "E3B0C44298FC1C149AFBF4C8996FB92427AE41E4649B934CA495991B7852B855  tool-x86_64-unknown-linux-gnu.tar.gz"))
        none (.ok [("tool", [1])]) none none none
        ⟨some [7], some 493, none⟩).trace :=
  (claim_C1 ⟨"acme", "tool", "tool-v"⟩ "1.0.1" "linux" "x86_64"
    "x86_64-unknown-linux-gnu" 200 200 []
    "E3B0C44298FC1C149AFBF4C8996FB92427AE41E4649B934CA495991B7852B855  tool-x86_64-unknown-linux-gnu.tar.gz"
    none (.ok [("tool", [1])]) none none none ⟨some [7], some 493, none⟩
    rfl rfl rfl).1 (by decide)

/-- C3 (amended): when the checksum sidecar fetch completes with a
non-success HTTP status, verification is skipped (the verify step never
runs) and the run proceeds to extraction; but when the sidecar fetch fails
at the transport level, `perform_update` propagates that error and the run
aborts before extraction — the original claim's "unsuccessful for any
reason, transport failure included" does not hold (see the
counterexample). -/
theorem claim_C3 (r : RepoInfo) (v os arch p : String) (ast cst : Nat)
    (B : List Nat) (ctext : String) (tempdirErr : Option String)
    (extractResp : Except String (List (String × List Nat)))
    (backupErr installErr chmodErr : Option String) (fs0 : FsState)
    (hp : get_platform_string os arch = some p)
    (hst : isSuccessStatus ast = true) (hcst : isSuccessStatus cst = false) :
    Stage.verifyStep ∉ (perform_update r v os arch (.ok (ast, B)) (.ok (cst, ctext))
        tempdirErr extractResp backupErr installErr chmodErr fs0).trace ∧
    Stage.extractStep ∈ (perform_update r v os arch (.ok (ast, B)) (.ok (cst, ctext))
        tempdirErr extractResp backupErr installErr chmodErr fs0).trace := by
  simp only [perform_update, hp, hst, hcst, if_true, Bool.false_eq_true, if_false]
  constructor
  · intro hmem
    have := installFlow_mem_inv r os tempdirErr extractResp backupErr installErr
      chmodErr fs0 [Stage.fetchArchive, Stage.fetchChecksum] Stage.verifyStep
      (by decide) hmem
    simp at this
  · exact installFlow_extract_mem ..

theorem claim_C3_witness :
    Stage.verifyStep ∉ (perform_update ⟨"acme", "tool", "tool-v"⟩ "1.0.1" "linux"
        "x86_64" (.ok (200, [])) (.ok (404, "Not Found")) none (.ok [("tool", [1])])
        none none none ⟨some [7], some 493, none⟩).trace ∧
    Stage.extractStep ∈ (perform_update ⟨"acme", "tool", "tool-v"⟩ "1.0.1" "linux"
        "x86_64" (.ok (200, [])) (.ok (404, "Not Found")) none (.ok [("tool", [1])])
        none none none ⟨some [7], some 493, none⟩).trace :=
  claim_C3 ⟨"acme", "tool", "tool-v"⟩ "1.0.1" "linux" "x86_64"
    "x86_64-unknown-linux-gnu" 200 404 [] "Not Found" none (.ok [("tool", [1])])
    none none none ⟨some [7], some 493, none⟩ rfl rfl rfl

/-- C3 counterexample: a transport-level failure of the sidecar fetch (the
`send()` call fails, e.g. connection reset) is propagated by the `?`
operator: `perform_update` returns that very error and extraction is never
reached, while the claim demands the run proceed to extraction for any
unsuccessful sidecar fetch. -/
theorem claim_C3_cex :
    (perform_update ⟨"acme", "tool", "tool-v"⟩ "1.0.1" "linux" "x86_64"
        (.ok (200, [])) (.error "connection reset by peer") none
        (.ok [("tool", [1])]) none none none ⟨some [7], some 493, none⟩).res =
      some (.error "connection reset by peer") ∧
    Stage.extractStep ∉ (perform_update ⟨"acme", "tool", "tool-v"⟩ "1.0.1" "linux"
        "x86_64" (.ok (200, [])) (.error "connection reset by peer") none
        (.ok [("tool", [1])]) none none none ⟨some [7], some 493, none⟩).trace := by
  exact ⟨rfl, by decide⟩

/-- C2: when the expected binary name is absent from the extracted tree,
`perform_update` fails with the `Binary {name} not found in archive`
message, the filesystem state is returned unchanged (no backup copy, no
overwrite, no permission change), and none of the backup / install / chmod
stages run. -/
theorem claim_C2 (r : RepoInfo) (v os arch p : String) (ast cst : Nat)
    (B : List Nat) (ctext : String)
    (files : List (String × List Nat))
    (backupErr installErr chmodErr : Option String) (fs0 : FsState)
    (hp : get_platform_string os arch = some p)
    (hst : isSuccessStatus ast = true)
    (hv : isSuccessStatus cst = false ∨
      lowerStr (hexEncode (sha256 B)) = lowerStr ((firstToken ctext).getD ctext))
    (hlk : files.lookup (binary_name r (os == "windows")) = none) :
    (perform_update r v os arch (.ok (ast, B)) (.ok (cst, ctext)) none (.ok files)
        backupErr installErr chmodErr fs0).res =
      some (.error ("Binary " ++ binary_name r (os == "windows") ++
        " not found in archive")) ∧
    (perform_update r v os arch (.ok (ast, B)) (.ok (cst, ctext)) none (.ok files)
        backupErr installErr chmodErr fs0).fs = fs0 ∧
    Stage.backupStep ∉ (perform_update r v os arch (.ok (ast, B)) (.ok (cst, ctext))
        none (.ok files) backupErr installErr chmodErr fs0).trace ∧
    Stage.installStep ∉ (perform_update r v os arch (.ok (ast, B)) (.ok (cst, ctext))
        none (.ok files) backupErr installErr chmodErr fs0).trace ∧
    Stage.chmodStep ∉ (perform_update r v os arch (.ok (ast, B)) (.ok (cst, ctext))
        none (.ok files) backupErr installErr chmodErr fs0).trace := by
  rcases hv with hcst | hmatch
  · simp only [perform_update, hp, hst, hcst, eq_self_iff_true, if_true,
      Bool.false_eq_true, if_false, installFlow, findFlow, hlk]
    exact ⟨by simp, by simp, by simp, by simp, by simp⟩
  · by_cases hcst2 : isSuccessStatus cst = true
    · simp only [perform_update, hp, hst, hcst2, eq_self_iff_true, if_true]
      rw [if_pos hmatch]
      simp only [installFlow, findFlow, hlk]
      exact ⟨by simp, by simp, by simp, by simp, by simp⟩
    · simp only [Bool.not_eq_true] at hcst2
      simp only [perform_update, hp, hst, hcst2, eq_self_iff_true, if_true,
        Bool.false_eq_true, if_false, installFlow, findFlow, hlk]
      exact ⟨by simp, by simp, by simp, by simp, by simp⟩

theorem claim_C2_witness :
    (perform_update ⟨"acme", "tool", "tool-v"⟩ "1.0.1" "linux" "x86_64"
        (.ok (200, [])) (.ok (404, "")) none (.ok [("other", [1])]) none none none
        ⟨some [7, 7], some 493, none⟩).res =
      some (.error ("Binary " ++ binary_name ⟨"acme", "tool", "tool-v"⟩
        ("linux" == "windows") ++ " not found in archive")) ∧
    (perform_update ⟨"acme", "tool", "tool-v"⟩ "1.0.1" "linux" "x86_64"
        (.ok (200, [])) (.ok (404, "")) none (.ok [("other", [1])]) none none none
        ⟨some [7, 7], some 493, none⟩).fs = ⟨some [7, 7], some 493, none⟩ ∧
    Stage.backupStep ∉ (perform_update ⟨"acme", "tool", "tool-v"⟩ "1.0.1" "linux"
        "x86_64" (.ok (200, [])) (.ok (404, "")) none (.ok [("other", [1])]) none
        none none ⟨some [7, 7], some 493, none⟩).trace ∧
    Stage.installStep ∉ (perform_update ⟨"acme", "tool", "tool-v"⟩ "1.0.1" "linux"
        "x86_64" (.ok (200, [])) (.ok (404, "")) none (.ok [("other", [1])]) none
        none none ⟨some [7, 7], some 493, none⟩).trace ∧
    Stage.chmodStep ∉ (perform_update ⟨"acme", "tool", "tool-v"⟩ "1.0.1" "linux"
        "x86_64" (.ok (200, [])) (.ok (404, "")) none (.ok [("other", [1])]) none
        none none ⟨some [7, 7], some 493, none⟩).trace :=
  claim_C2 ⟨"acme", "tool", "tool-v"⟩ "1.0.1" "linux" "x86_64"
    "x86_64-unknown-linux-gnu" 200 404 [] "" [("other", [1])] none none none
    ⟨some [7, 7], some 493, none⟩ rfl rfl (Or.inl rfl) rfl

/-- C10: when the checksum sidecar fetch returns an HTTP success status but
its body is empty or all-whitespace, verification is NOT skipped: the
expected digest falls back to the whole body (`split_whitespace().next()`
yields nothing), the case-insensitive comparison with the 64-hex-character
computed digest necessarily fails, and the run aborts with the
checksum-mismatch error before extraction. -/
theorem claim_C10 (r : RepoInfo) (v os arch p : String) (ast cst : Nat)
    (B : List Nat) (ctext : String) (tempdirErr : Option String)
    (extractResp : Except String (List (String × List Nat)))
    (backupErr installErr chmodErr : Option String) (fs0 : FsState)
    (hp : get_platform_string os arch = some p)
    (hst : isSuccessStatus ast = true) (hcst : isSuccessStatus cst = true)
    (hws : ∀ c ∈ ctext.toList, c.isWhitespace = true) :
    (perform_update r v os arch (.ok (ast, B)) (.ok (cst, ctext)) tempdirErr
        extractResp backupErr installErr chmodErr fs0).res =
      some (.error ("Checksum mismatch!\nExpected: " ++ ctext ++ "\nGot: " ++
        hexEncode (sha256 B))) ∧
    Stage.verifyStep ∈ (perform_update r v os arch (.ok (ast, B)) (.ok (cst, ctext))
        tempdirErr extractResp backupErr installErr chmodErr fs0).trace ∧
    Stage.extractStep ∉ (perform_update r v os arch (.ok (ast, B)) (.ok (cst, ctext))
        tempdirErr extractResp backupErr installErr chmodErr fs0).trace := by
  have hft : firstToken ctext = none := by
    unfold firstToken
    have hdw : ctext.toList.dropWhile Char.isWhitespace = [] :=
      List.dropWhile_eq_nil_iff.mpr hws
    rw [hdw]
  have hne : ¬(lowerStr (hexEncode (sha256 B)) = lowerStr ctext) :=
    lower_hex_ne_ws B ctext hws
  simp only [perform_update, hp, hst, hcst, eq_self_iff_true, if_true, hft,
    Option.getD_none]
  rw [if_neg hne]
  exact ⟨by simp, by simp, by simp⟩

theorem claim_C10_witness :
    (perform_update ⟨"acme", "tool", "tool-v"⟩ "1.0.1" "linux" "x86_64"
        (.ok (200, [])) (.ok (200, "")) none (.ok [("tool", [1])]) none none none
        ⟨some [7], some 493, none⟩).res =
      some (.error ("Checksum mismatch!\nExpected: " ++ "" ++ "\nGot: " ++
        hexEncode (sha256 []))) ∧
    Stage.verifyStep ∈ (perform_update ⟨"acme", "tool", "tool-v"⟩ "1.0.1" "linux"
        "x86_64" (.ok (200, [])) (.ok (200, "")) none (.ok [("tool", [1])]) none
        none none ⟨some [7], some 493, none⟩).trace ∧
    Stage.extractStep ∉ (perform_update ⟨"acme", "tool", "tool-v"⟩ "1.0.1" "linux"
        "x86_64" (.ok (200, [])) (.ok (200, "")) none (.ok [("tool", [1])]) none
        none none ⟨some [7], some 493, none⟩).trace :=
  claim_C10 ⟨"acme", "tool", "tool-v"⟩ "1.0.1" "linux" "x86_64"
    "x86_64-unknown-linux-gnu" 200 200 [] "" none (.ok [("tool", [1])]) none none
    none ⟨some [7], some 493, none⟩ rfl rfl rfl (by simp)

end WorkhelixCli
